import Mathlib

/-!
Shallow embedding of the transcription orchestration service of
`internal/services/transcription_service.go` (repository wx_channel).

The Go service is stateful and concurrent; here every operation is a pure
function over an explicit state, and every interaction with the outside
world (record store, file system, settings, the ffmpeg subprocess, the
whisper-server child process and its HTTP endpoints) is mediated by an
oracle structure `World` that fixes the outcome of each external call.
Mutex-protected sections execute atomically in this sequential rendering;
the lock acquisitions/releases of the job-admission section of
`TranscribeVideo` (lines 110-126) are additionally recorded as explicit
events so that the shape of the critical section is visible in traces.
Wall-clock time in `waitForServerReady` is abstracted: each failed probe
advances time by one poll interval (the 500ms sleep of line 339), so the
number of probe attempts is `ceil(timeout / interval)`.
-/

namespace WxChannel

/-- Transcript status of a download record
(`database.TranscriptStatus*` constants used at lines 133, 139, 145, 150, 191, 205). -/
inductive TranscriptStatus
  | none
  | inProgress
  | completed
  | failed
deriving DecidableEq

/-- A download record as read by the service: `record.FilePath` (line 105),
`record.Title` (line 154), `record.TranscriptStatus` / `record.TranscriptPath`
(lines 205-209). -/
structure MediaRecord where
  id : String
  filePath : String
  title : String
  transcriptStatus : TranscriptStatus
  transcriptPath : String
deriving DecidableEq

/-- The persisted record store, an association list keyed by record id. -/
abbrev Store := List (String × MediaRecord)

/-- The on-disk file system: path-to-contents association list.  Used to model
`os.Stat`, `os.ReadFile`, `os.WriteFile`, `os.Remove` and the wav file that
ffmpeg produces. -/
structure FS where
  files : List (String × String)
deriving DecidableEq

/-- `os.ReadFile`: contents of the first entry at `p`, if any. -/
def FS.read? (fs : FS) (p : String) : Option String :=
  (fs.files.find? (fun q => q.1 == p)).map (fun q => q.2)

/-- `os.Stat` success: the path is present. -/
def FS.pathExists (fs : FS) (p : String) : Bool :=
  (fs.read? p).isSome

/-- `os.WriteFile`: create or overwrite the file at `p`. -/
def FS.write (fs : FS) (p c : String) : FS :=
  ⟨(p, c) :: fs.files.filter (fun q => q.1 != p)⟩

/-- `os.Remove`: drop the file at `p` (no error reported when absent,
matching the ignored error of `os.Remove(wavPath)` at line 382). -/
def FS.remove (fs : FS) (p : String) : FS :=
  ⟨fs.files.filter (fun q => q.1 != p)⟩

/-- `filepath.Ext`: the suffix of the last path element starting at its final
dot, or `""` when there is no dot.  Scans the reversed character list,
stopping at a path separator, exactly like Go's implementation. -/
def extRev : List Char → List Char → String
  | _, [] => ""
  | acc, c :: rest =>
    if c = '/' then ""
    else if c = '.' then String.mk (c :: acc)
    else extRev (c :: acc) rest

/-- `filepath.Ext path` (used at line 129). -/
def filepathExt (p : String) : String :=
  extRev [] p.data.reverse

/-- `strings.TrimSuffix` (used at line 130): drop `suf` from the end of `s`
when it is a suffix, else return `s` unchanged.  Implemented on character
lists so that it evaluates by kernel reduction. -/
def trimSuffix (s suf : String) : String :=
  if suf.data.isSuffixOf s.data then
    String.mk (s.data.take (s.data.length - suf.data.length))
  else s

/-- `strings.TrimSpace` applied to the recognized text at line 396: strip
leading and trailing whitespace. -/
def trimSpace (s : String) : String :=
  String.mk (((s.data.dropWhile Char.isWhitespace).reverse.dropWhile Char.isWhitespace).reverse)

/-- Output path computation of `TranscribeVideo` lines 129-130:
`strings.TrimSuffix(record.FilePath, filepath.Ext(record.FilePath)) + ".txt"`. -/
def outputTxtPath (filePath : String) : String :=
  trimSuffix filePath (filepathExt filePath) ++ ".txt"

/-- In-memory mutable fields of `TranscriptionService` (struct at lines 23-31).
`activeJobs` keeps only the keys of the Go map (the `context.CancelFunc`
values carry no further observable state here); `serverCmd` is the identity
(pid) of the tracked child process, `none` for the nil pointer. -/
structure ServiceState where
  activeJobs : List String
  serverCmd : Option Nat
  serverPort : Nat
  serverRunning : Bool
deriving DecidableEq

/-- Full system state threaded through an operation: service fields, disk,
and the record store. -/
structure SysState where
  svc : ServiceState
  fs : FS
  store : Store
deriving DecidableEq

/-- Cancellation state of the job's `context.Context`.  The Go context is a
monotone signal; the two flags say whether it is already cancelled when the
ffmpeg `exec.CommandContext` runs (line 380) and when the inference
`http.NewRequestWithContext` request runs (line 438).  A context cancelled
before extraction is also cancelled before inference. -/
structure Ctx where
  cancelledBeforeExtraction : Bool
  cancelledBeforeInference : Bool
deriving DecidableEq

/-- Failure cases of `postInference` (lines 404-461), in source order:
opening/copying the wav file, `client.Do` (transport failure or context
cancellation), `io.ReadAll` of the body, non-200 status. -/
inductive InferErr
  | openFileFailed
  | requestFailed (cancelled : Bool)
  | readBodyFailed
  | serverError (status : Nat) (body : String)
deriving DecidableEq

/-- Error taxonomy of the service.  Each constructor corresponds to one
`fmt.Errorf` site of `transcription_service.go`; wrapping constructors mirror
`%w` wrapping. -/
inductive SvcErr
  | recordFetchFailed
  | recordNotFound (id : String)
  | videoFileMissing (path : String)
  | alreadyRunning
  | serverPathNotConfigured
  | modelPathNotConfigured
  | spawnFailed
  | startupTimeout
  | serverNotReady (e : SvcErr)
  | ffmpegNotConfigured
  | extractionFailed (output : String)
  | inferenceFailed (e : InferErr)
  | writeTxtFailed
  | transcribeFailed (e : SvcErr)
  | outputMissing (path : String)
  | updateStatusFailed
  | noActiveJob (id : String)
  | transcriptNotReady
  | readTranscriptFailed
deriving DecidableEq

/-- Observable events of a run.  `lockAcq`/`lockRel`/`checkJobs`/`insertJob`/
`removeJob` record the mutex-guarded job-table section of `TranscribeVideo`
(lines 110-126); other mutex uses of the service are not eventful here.
`statOutput` records the `os.Stat(txtPath)` verification of line 144. -/
inductive Event
  | lockAcq
  | lockRel
  | checkJobs (id : String)
  | insertJob (id : String)
  | removeJob (id : String)
  | pingOnce
  | spawn (pid : Nat)
  | poll (k : Nat)
  | kill (pid : Nat)
  | reap (pid : Nat)
  | runFfmpeg
  | httpPost
  | removeFile (path : String)
  | writeFile (path : String)
  | statOutput (path : String) (ok : Bool)
  | updateStatus (id : String) (st : TranscriptStatus) (path : String)
  | cancelInvoked (id : String)
deriving DecidableEq

/-- Oracle for every external call the service makes.  Settings getters are
modelled by their resolved results (`getFFmpegPath` and
`getWhisperServerPath` include the `exec.LookPath` fallback; `getModelPath`
is the raw setting; `getServerPort` applies the 8178 default). -/
structure World where
  /-- `downloadRepo.GetByID` returns a non-nil error for this id. -/
  getErr : String → Bool
  /-- `downloadRepo.UpdateTranscriptStatus(id, st, path)` succeeds. -/
  updateOk : String → TranscriptStatus → String → Bool
  ffmpegPath : String
  whisperServerPath : String
  modelPath : String
  serverPort : Nat
  deleteAfterTranscript : Bool
  /-- `cmd.Start()` of whisper-server succeeds (line 295). -/
  spawnOk : Bool
  /-- pid of a freshly spawned whisper-server process. -/
  newPid : Nat
  /-- `pingServer` result for the liveness re-check of a tracked process
  (line 258). -/
  pingInitial : Bool
  /-- `pingServer` result for the k-th readiness poll of `waitForServerReady`
  (line 336). -/
  pingPoll : Nat → Bool
  /-- ffmpeg exits with status zero (line 381). -/
  ffmpegOk : Bool
  /-- `cmd.CombinedOutput()` captured output of the ffmpeg run. -/
  ffmpegOutput : String
  /-- contents of the wav file a successful ffmpeg run leaves behind. -/
  wavData : String
  /-- `client.Do` reaches the server (line 445); a cancelled context makes the
  call fail regardless. -/
  transportOk : Bool
  /-- `io.ReadAll(resp.Body)` succeeds (line 451). -/
  respReadOk : Bool
  /-- HTTP status code of the inference response. -/
  respStatus : Nat
  /-- body of the inference response. -/
  respBody : String
  /-- `os.WriteFile(txtPath, ...)` succeeds (line 396). -/
  writeTxtOk : Bool
  /-- `exec.Command(ffmpegPath, "-version").Run()` succeeds (line 66). -/
  ffmpegVersionOk : Bool
  /-- `exec.Command(serverPath, "--help").Run()` succeeds (line 77). -/
  serverHelpOk : Bool

/-- Result of `downloadRepo.GetByID` as observed by the service:
`(nil, err)`, `(nil, nil)`, or `(record, nil)` (lines 96-102). -/
inductive GetResult
  | fetchErr
  | notFound
  | found (r : MediaRecord)
deriving DecidableEq

/-- Association-list lookup backing `GetByID`. -/
def lookupRecord (st : Store) (id : String) : Option MediaRecord :=
  (st.find? (fun q => q.1 == id)).map (fun q => q.2)

/-- `downloadRepo.GetByID` (lines 96-102, 197-203, 219-225). -/
def getByID (w : World) (st : Store) (id : String) : GetResult :=
  if w.getErr id then .fetchErr
  else
    match lookupRecord st id with
    | Option.none => .notFound
    | some r => .found r

/-- `downloadRepo.UpdateTranscriptStatus(id, ts, path)`: on success the
matching record's status and transcript path are replaced; on failure the
store is untouched.  Second component reports success. -/
def updateTranscriptStatus (w : World) (st : Store) (id : String)
    (ts : TranscriptStatus) (path : String) : Store × Bool :=
  if w.updateOk id ts path then
    (st.map (fun q =>
      if q.1 == id then (q.1, { q.2 with transcriptStatus := ts, transcriptPath := path })
      else q), true)
  else (st, false)

/-- Transcript status of the stored record for `id`. -/
def storeStatus (st : Store) (id : String) : Option TranscriptStatus :=
  (lookupRecord st id).map (fun r => r.transcriptStatus)

/-- Transcript path of the stored record for `id`. -/
def storeTxtPath (st : Store) (id : String) : Option String :=
  (lookupRecord st id).map (fun r => r.transcriptPath)

/-- Readiness-poll loop body of `waitForServerReady` (lines 333-342), with
time abstracted: `fuel` is the number of poll opportunities left before the
deadline, `k` the index of the next probe.  Returns whether a probe succeeded
and how many probes ran. -/
def waitPollLoop (ping : Nat → Bool) : Nat → Nat → Bool × Nat
  | _, 0 => (false, 0)
  | k, fuel + 1 =>
    if ping k then (true, 1)
    else
      let r := waitPollLoop ping (k + 1) fuel
      (r.1, r.2 + 1)

/-- Number of probes that fit before the deadline when each failed probe is
followed by a full `pollMs` sleep: `ceil(timeoutMs / pollMs)`. -/
def numPolls (timeoutMs pollMs : Nat) : Nat :=
  (timeoutMs + pollMs - 1) / pollMs

/-- `120 * time.Second` startup ceiling passed at line 304, in ms. -/
def serverStartTimeoutMs : Nat := 120000

/-- `500 * time.Millisecond` sleep of line 339, in ms. -/
def serverPollIntervalMs : Nat := 500

/-- `30 * time.Minute` outer deadline `TranscribeAsync` gives each job
(line 171), in ms. -/
def asyncJobTimeoutMs : Nat := 1800000

/-- `waitForServerReady(port, timeout)` (lines 333-342): poll until a probe
succeeds or the deadline passes. -/
def waitForServerReady (ping : Nat → Bool) (timeoutMs pollMs : Nat) : Bool × Nat :=
  waitPollLoop ping 0 (numPolls timeoutMs pollMs)

/-- Result of a supervisor-level operation. -/
structure SrvResult where
  err : Option SvcErr
  svc : ServiceState
  events : List Event
deriving DecidableEq

/-- `startServerLocked` (lines 272-330): path checks, spawn, readiness wait;
on timeout the process is killed, reaped and the handle cleared (lines
307-312).  The background exit-watcher goroutine of lines 318-327 mutates
state only after a process exit and is outside this sequential model. -/
def startServerLocked (w : World) (svc : ServiceState) : SrvResult :=
  if w.whisperServerPath = "" then ⟨some .serverPathNotConfigured, svc, []⟩
  else if w.modelPath = "" then ⟨some .modelPathNotConfigured, svc, []⟩
  else if !w.spawnOk then ⟨some .spawnFailed, svc, []⟩
  else
    let pid := w.newPid
    let svc1 := { svc with serverCmd := some pid, serverPort := w.serverPort }
    let r := waitForServerReady w.pingPoll serverStartTimeoutMs serverPollIntervalMs
    let pollEvents := (List.range r.2).map Event.poll
    if r.1 then
      ⟨Option.none, { svc1 with serverRunning := true }, [Event.spawn pid] ++ pollEvents⟩
    else
      ⟨some .startupTimeout, { svc1 with serverCmd := Option.none },
        [Event.spawn pid] ++ pollEvents ++ [Event.kill pid, Event.reap pid]⟩

/-- `ensureServerRunning` (lines 250-269): if a tracked process is believed
alive, re-probe it; on a failed probe clear the state and fall through to a
fresh start. -/
def ensureServerRunning (w : World) (svc : ServiceState) : SrvResult :=
  if svc.serverRunning && svc.serverCmd.isSome then
    if w.pingInitial then ⟨Option.none, svc, [Event.pingOnce]⟩
    else
      let r := startServerLocked w
        { svc with serverRunning := false, serverCmd := Option.none }
      ⟨r.err, r.svc, Event.pingOnce :: r.events⟩
  else startServerLocked w svc

/-- Result of `postInference`. -/
inductive InferResult
  | fail (e : InferErr)
  | ok (text : String)
deriving DecidableEq

/-- `postInference` (lines 404-461): open the wav file, build the multipart
body, POST with the job's context, read and check the response.  The
hardcoded `http.Client{Timeout: 10 * time.Minute}` of line 444 is recorded
separately in `inferenceClientConfig`. -/
def postInference (w : World) (ctx : Ctx) (fs : FS) (wavPath : String) : InferResult :=
  match fs.read? wavPath with
  | Option.none => .fail .openFileFailed
  | some _ =>
    if ctx.cancelledBeforeInference then .fail (.requestFailed true)
    else if !w.transportOk then .fail (.requestFailed false)
    else if !w.respReadOk then .fail .readBodyFailed
    else if w.respStatus ≠ 200 then .fail (.serverError w.respStatus w.respBody)
    else .ok w.respBody

/-- Result of `doTranscribe`. -/
structure DoResult where
  err : Option SvcErr
  svc : ServiceState
  fs : FS
  events : List Event
deriving DecidableEq

/-- `doTranscribe` (lines 356-401): ensure the server, extract audio with
ffmpeg under the job context, POST the wav, write the trimmed text.  The wav
temp file is removed on the extraction-failure branch (line 382) and by the
deferred `os.Remove(wavPath)` of line 385 on every later exit. -/
def doTranscribe (w : World) (ctx : Ctx) (svc : ServiceState) (fs : FS)
    (videoPath txtPath : String) : DoResult :=
  let r := ensureServerRunning w svc
  match r.err with
  | some e => ⟨some (.serverNotReady e), r.svc, fs, r.events⟩
  | Option.none =>
    if w.ffmpegPath = "" then ⟨some .ffmpegNotConfigured, r.svc, fs, r.events⟩
    else
      let wavPath := videoPath ++ ".tmp.wav"
      if ctx.cancelledBeforeExtraction || !w.ffmpegOk then
        ⟨some (.extractionFailed w.ffmpegOutput), r.svc, fs.remove wavPath,
          r.events ++ [Event.runFfmpeg, Event.removeFile wavPath]⟩
      else
        let fs1 := fs.write wavPath w.wavData
        match postInference w ctx fs1 wavPath with
        | .fail e =>
          ⟨some (.inferenceFailed e), r.svc, fs1.remove wavPath,
            r.events ++ [Event.runFfmpeg, Event.httpPost, Event.removeFile wavPath]⟩
        | .ok text =>
          if !w.writeTxtOk then
            ⟨some .writeTxtFailed, r.svc, fs1.remove wavPath,
              r.events ++ [Event.runFfmpeg, Event.httpPost, Event.removeFile wavPath]⟩
          else
            ⟨Option.none, r.svc, (fs1.write txtPath (trimSpace text)).remove wavPath,
              r.events ++ [Event.runFfmpeg, Event.httpPost,
                Event.writeFile txtPath, Event.removeFile wavPath]⟩

/-- Result of a coordinator-level operation. -/
structure TVResult where
  err : Option SvcErr
  sys : SysState
  events : List Event
deriving DecidableEq

/-- Post-admission tail of `TranscribeVideo` (lines 116-165): register the
job, mark in-progress, run the pipeline, verify the output file, mark
completed or failed, optionally delete the source; the deferred cleanup of
lines 121-126 removes the job-table entry on every exit from here. -/
def transcribeVideoAdmitted (w : World) (ctx : Ctx) (sys : SysState) (recordID : String)
    (record : MediaRecord) : TVResult :=
  let svc0 := { sys.svc with activeJobs := recordID :: sys.svc.activeJobs }
  let txtPath := outputTxtPath record.filePath
  let store1 := (updateTranscriptStatus w sys.store recordID .inProgress "").1
  let evs1 : List Event :=
    [Event.lockAcq, Event.checkJobs recordID, Event.insertJob recordID, Event.lockRel,
     Event.updateStatus recordID .inProgress ""]
  let d := doTranscribe w ctx svc0 sys.fs record.filePath txtPath
  let deferEvs : List Event := [Event.lockAcq, Event.removeJob recordID, Event.lockRel]
  let svcEnd := { d.svc with activeJobs := d.svc.activeJobs.erase recordID }
  match d.err with
  | some e =>
    ⟨some (.transcribeFailed e),
      ⟨svcEnd, d.fs, (updateTranscriptStatus w store1 recordID .failed "").1⟩,
      evs1 ++ d.events ++ [Event.updateStatus recordID .failed ""] ++ deferEvs⟩
  | Option.none =>
    if !d.fs.pathExists txtPath then
      ⟨some (.outputMissing txtPath),
        ⟨svcEnd, d.fs, (updateTranscriptStatus w store1 recordID .failed "").1⟩,
        evs1 ++ d.events
          ++ [Event.statOutput txtPath false, Event.updateStatus recordID .failed ""]
          ++ deferEvs⟩
    else
      let u := updateTranscriptStatus w store1 recordID .completed txtPath
      if !u.2 then
        ⟨some .updateStatusFailed, ⟨svcEnd, d.fs, u.1⟩,
          evs1 ++ d.events
            ++ [Event.statOutput txtPath true,
                Event.updateStatus recordID .completed txtPath]
            ++ deferEvs⟩
      else
        let fsF := if w.deleteAfterTranscript then d.fs.remove record.filePath else d.fs
        ⟨Option.none, ⟨svcEnd, fsF, u.1⟩,
          evs1 ++ d.events
            ++ [Event.statOutput txtPath true,
                Event.updateStatus recordID .completed txtPath]
            ++ deferEvs⟩

/-- `TranscribeVideo` (lines 94-166): fetch the record, verify its source
file, admit the job under the mutex (check + insert in one critical
section), then run the admitted tail. -/
def transcribeVideo (w : World) (ctx : Ctx) (sys : SysState) (recordID : String) : TVResult :=
  match getByID w sys.store recordID with
  | .fetchErr => ⟨some .recordFetchFailed, sys, []⟩
  | .notFound => ⟨some (.recordNotFound recordID), sys, []⟩
  | .found record =>
    if !sys.fs.pathExists record.filePath then
      ⟨some (.videoFileMissing record.filePath), sys, []⟩
    else if recordID ∈ sys.svc.activeJobs then
      ⟨some .alreadyRunning, sys, [Event.lockAcq, Event.checkJobs recordID, Event.lockRel]⟩
    else transcribeVideoAdmitted w ctx sys recordID record

/-- `CancelTranscription` (lines 181-193): look the job up under the mutex;
absent → error; present → invoke the cancel token and record failed status.
The job-table entry itself is removed by the running job's deferred cleanup,
not here. -/
def cancelTranscription (w : World) (sys : SysState) (recordID : String) : TVResult :=
  if recordID ∈ sys.svc.activeJobs then
    ⟨Option.none,
      ⟨sys.svc, sys.fs, (updateTranscriptStatus w sys.store recordID .failed "").1⟩,
      [Event.cancelInvoked recordID, Event.updateStatus recordID .failed ""]⟩
  else ⟨some (.noActiveJob recordID), sys, []⟩

/-- Result of `GetTranscript`. -/
inductive TxResult
  | fail (e : SvcErr)
  | ok (data : String)
deriving DecidableEq

/-- `GetTranscript` (lines 196-215). -/
def getTranscript (w : World) (sys : SysState) (recordID : String) : TxResult :=
  match getByID w sys.store recordID with
  | .fetchErr => .fail .recordFetchFailed
  | .notFound => .fail (.recordNotFound recordID)
  | .found record =>
    if record.transcriptPath = "" ∨ record.transcriptStatus ≠ .completed then
      .fail .transcriptNotReady
    else
      match sys.fs.read? record.transcriptPath with
      | Option.none => .fail .readTranscriptFailed
      | some data => .ok data

/-- Failure cases of `ValidateTools` (lines 58-91), in source order. -/
inductive ToolErr
  | ffmpegMissing
  | ffmpegRunFailed
  | serverMissing
  | serverRunFailed
  | modelPathEmpty
  | modelFileMissing
deriving DecidableEq

/-- `ValidateTools` (lines 58-91): the only place the service checks that the
model file exists on disk (`os.Stat(modelPath)` at line 86). -/
def validateTools (w : World) (fs : FS) : Option ToolErr :=
  if w.ffmpegPath = "" then some .ffmpegMissing
  else if !w.ffmpegVersionOk then some .ffmpegRunFailed
  else if w.whisperServerPath = "" then some .serverMissing
  else if !w.serverHelpOk then some .serverRunFailed
  else if w.modelPath = "" then some .modelPathEmpty
  else if !fs.pathExists w.modelPath then some .modelFileMissing
  else Option.none

/-- Static configuration of one `http.Client` call site. -/
structure HTTPClientConfig where
  /-- `http.Client.Timeout` in ms, `none` when the zero value (no timeout)
  is used. -/
  timeoutMs : Option Nat
  /-- the request is built with `http.NewRequestWithContext` on the job's
  context. -/
  usesRequestContext : Bool
deriving DecidableEq

/-- The inference call of `postInference`:
`client := &http.Client{Timeout: 10 * time.Minute}` (line 444) together with
`http.NewRequestWithContext(ctx, "POST", url, &body)` (line 438). -/
def inferenceClientConfig : HTTPClientConfig := ⟨some 600000, true⟩

/-- The health probe of `pingServer`:
`client := &http.Client{Timeout: 2 * time.Second}` and a bare `client.Get`
with no caller context (lines 346-347). -/
def pingClientConfig : HTTPClientConfig := ⟨some 2000, false⟩

/-- Instant at which an HTTP call is forcibly ended: the earlier of the
client's own timeout and — when the request carries the caller's context —
the caller's deadline. -/
def effectiveDeadline (cfg : HTTPClientConfig) (callerDeadlineMs : Option Nat) : Option Nat :=
  match cfg.timeoutMs, (if cfg.usesRequestContext then callerDeadlineMs else Option.none) with
  | Option.none, d => d
  | some t, Option.none => some t
  | some t, some d => some (Nat.min t d)

/-! ### Helper lemmas -/

/-- Filtering out entries with key `p` does not affect a lookup for a
different key `q`. -/
theorem find?_key_filter {α : Type} (l : List (String × α)) (p q : String) (h : q ≠ p) :
    (l.filter (fun x => x.1 != p)).find? (fun x => x.1 == q)
      = l.find? (fun x => x.1 == q) := by
  induction l with
  | nil => rfl
  | cons a t ih =>
    by_cases hq : a.1 = q
    · have hp : (a.1 != p) = true := by simp [hq, h]
      have hqb : (a.1 == q) = true := by simp [hq]
      rw [List.filter_cons, if_pos hp]
      simp only [List.find?_cons, hqb]
    · have hqb : (a.1 == q) = false := by simp [hq]
      by_cases hap : a.1 = p
      · have hp : ¬ ((a.1 != p) = true) := by simp [hap]
        rw [List.filter_cons, if_neg hp]
        simp only [List.find?_cons, hqb, ih]
      · have hp : (a.1 != p) = true := by simp [hap]
        rw [List.filter_cons, if_pos hp]
        simp only [List.find?_cons, hqb, ih]

theorem FS.read?_write_self (fs : FS) (p c : String) : (fs.write p c).read? p = some c := by
  simp [FS.write, FS.read?, List.find?_cons]

theorem FS.read?_write_ne (fs : FS) (p c q : String) (h : q ≠ p) :
    (fs.write p c).read? q = fs.read? q := by
  have hpq : (p == q) = false := by
    simp only [beq_eq_false_iff_ne, ne_eq]
    exact fun hh => h hh.symm
  simp only [FS.write, FS.read?, List.find?_cons, hpq]
  rw [find?_key_filter _ p q h]

theorem FS.read?_remove_self (fs : FS) (p : String) : (fs.remove p).read? p = Option.none := by
  simp only [FS.remove, FS.read?]
  induction fs.files with
  | nil => rfl
  | cons a t ih =>
    by_cases hap : a.1 = p
    · rw [List.filter_cons, if_neg (by simp [hap])]
      exact ih
    · have hqb : (a.1 == p) = false := by simp [hap]
      have hp : (a.1 != p) = true := by simp [hap]
      rw [List.filter_cons, if_pos hp]
      simp only [List.find?_cons, hqb]
      exact ih

theorem FS.read?_remove_ne (fs : FS) (p q : String) (h : q ≠ p) :
    (fs.remove p).read? q = fs.read? q := by
  simp [FS.remove, FS.read?, find?_key_filter _ p q h]

theorem FS.pathExists_remove_self (fs : FS) (p : String) :
    (fs.remove p).pathExists p = false := by
  simp [FS.pathExists, FS.read?_remove_self]

theorem FS.pathExists_write_self (fs : FS) (p c : String) :
    (fs.write p c).pathExists p = true := by
  simp [FS.pathExists, FS.read?_write_self]

/-- The success flag of `updateTranscriptStatus` is exactly the oracle's
verdict. -/
theorem updateTranscriptStatus_snd (w : World) (st : Store) (id : String)
    (ts : TranscriptStatus) (path : String) :
    (updateTranscriptStatus w st id ts path).2 = w.updateOk id ts path := by
  unfold updateTranscriptStatus
  split <;> simp_all

/-- Effect of `updateTranscriptStatus` on a lookup of the same id. -/
theorem lookupRecord_update (w : World) (st : Store) (id : String)
    (ts : TranscriptStatus) (path : String) :
    lookupRecord (updateTranscriptStatus w st id ts path).1 id
      = if w.updateOk id ts path then
          (lookupRecord st id).map
            (fun r => { r with transcriptStatus := ts, transcriptPath := path })
        else lookupRecord st id := by
  unfold updateTranscriptStatus
  by_cases hok : w.updateOk id ts path
  · simp only [hok, if_true]
    induction st with
    | nil => rfl
    | cons a t ih =>
      by_cases hai : a.1 = id
      · simp [lookupRecord, List.find?_cons, hai]
      · simpa [lookupRecord, List.find?_cons, hai] using ih
  · simp [hok]

/-- Unpacking a successful `getByID`. -/
theorem getByID_found (w : World) (st : Store) (id : String) (r : MediaRecord)
    (h : getByID w st id = .found r) :
    w.getErr id = false ∧ lookupRecord st id = some r := by
  unfold getByID at h
  by_cases hge : w.getErr id
  · simp [hge] at h
  · simp only [hge, if_false] at h ⊢
    constructor
    · simp [hge]
    · cases hl : lookupRecord st id with
      | none => rw [hl] at h; exact absurd h (by simp)
      | some rr => rw [hl] at h; simp_all

/-- A readiness loop whose probe never succeeds exhausts its fuel. -/
theorem waitPollLoop_const_false (ping : Nat → Bool) (h : ∀ k, ping k = false) :
    ∀ fuel k, waitPollLoop ping k fuel = (false, fuel) := by
  intro fuel
  induction fuel with
  | zero => intro k; rfl
  | succ n ih => intro k; simp [waitPollLoop, h k, ih (k + 1)]

/-- A readiness loop whose first probe succeeds stops after one probe. -/
theorem waitPollLoop_first_true (ping : Nat → Bool) (k fuel : Nat) (h : ping k = true) :
    waitPollLoop ping k (fuel + 1) = (true, 1) := by
  simp [waitPollLoop, h]

/-- The 120s / 500ms parameters admit exactly 240 readiness probes. -/
theorem numPolls_startup : numPolls serverStartTimeoutMs serverPollIntervalMs = 240 := by
  decide

/-- `startServerLocked` when the probe never succeeds: spawn, 240 polls,
kill, reap, handle cleared, `startupTimeout`. -/
theorem startServerLocked_timeout (w : World) (svc : ServiceState)
    (hsp : w.whisperServerPath ≠ "") (hmp : w.modelPath ≠ "")
    (hspawn : w.spawnOk = true) (hping : ∀ k, w.pingPoll k = false) :
    startServerLocked w svc =
      ⟨some .startupTimeout,
        { svc with serverCmd := Option.none, serverPort := w.serverPort },
        [Event.spawn w.newPid] ++ (List.range 240).map Event.poll
          ++ [Event.kill w.newPid, Event.reap w.newPid]⟩ := by
  unfold startServerLocked waitForServerReady
  rw [numPolls_startup]
  simp [hsp, hmp, hspawn, waitPollLoop_const_false w.pingPoll hping 240 0]

/-- `startServerLocked` when the very first probe succeeds. -/
theorem startServerLocked_ready0 (w : World) (svc : ServiceState)
    (hsp : w.whisperServerPath ≠ "") (hmp : w.modelPath ≠ "")
    (hspawn : w.spawnOk = true) (hping : w.pingPoll 0 = true) :
    startServerLocked w svc =
      ⟨Option.none,
        { svc with serverCmd := some w.newPid, serverPort := w.serverPort,
                   serverRunning := true },
        [Event.spawn w.newPid, Event.poll 0]⟩ := by
  unfold startServerLocked waitForServerReady
  rw [numPolls_startup]
  rw [show (240 : Nat) = 239 + 1 from rfl, waitPollLoop_first_true w.pingPoll 0 239 hping]
  simp only [hsp, hmp, hspawn]
  simp [List.range_succ]

/-- With a live tracked process and a successful probe, `ensureServerRunning`
is a no-op. -/
theorem ensureServerRunning_alive (w : World) (svc : ServiceState)
    (hrun : svc.serverRunning = true) (hcmd : svc.serverCmd.isSome = true)
    (hping : w.pingInitial = true) :
    ensureServerRunning w svc = ⟨Option.none, svc, [Event.pingOnce]⟩ := by
  unfold ensureServerRunning
  simp [hrun, hcmd, hping]

/-- With no running server, `ensureServerRunning` goes straight to
`startServerLocked`. -/
theorem ensureServerRunning_notRunning (w : World) (svc : ServiceState)
    (hrun : svc.serverRunning = false) :
    ensureServerRunning w svc = startServerLocked w svc := by
  unfold ensureServerRunning
  simp [hrun]

/-- The supervisor never performs an inference POST. -/
theorem ensureServerRunning_no_httpPost (w : World) (svc : ServiceState) :
    Event.httpPost ∉ (ensureServerRunning w svc).events := by
  have hstart : ∀ svc2 : ServiceState, Event.httpPost ∉ (startServerLocked w svc2).events := by
    intro svc2
    unfold startServerLocked
    by_cases h1 : w.whisperServerPath = ""
    · simp [h1]
    · by_cases h2 : w.modelPath = ""
      · simp [h1, h2]
      · by_cases h3 : w.spawnOk = true
        · rcases hr : waitForServerReady w.pingPoll serverStartTimeoutMs serverPollIntervalMs
            with ⟨ok, n⟩
          cases ok <;> simp [h1, h2, h3, hr, List.mem_map]
        · simp [h1, h2, h3]
  unfold ensureServerRunning
  split
  · split
    · simp
    · simpa using hstart _
  · exact hstart _

/-- `startServerLocked` never touches the job table. -/
theorem startServerLocked_activeJobs (w : World) (svc : ServiceState) :
    (startServerLocked w svc).svc.activeJobs = svc.activeJobs := by
  unfold startServerLocked
  by_cases h1 : w.whisperServerPath = ""
  · simp [h1]
  · by_cases h2 : w.modelPath = ""
    · simp [h1, h2]
    · by_cases h3 : w.spawnOk = true
      · rcases hr : waitForServerReady w.pingPoll serverStartTimeoutMs serverPollIntervalMs
          with ⟨ok, n⟩
        cases ok <;> simp [h1, h2, h3, hr]
      · simp [h1, h2, h3]

/-- `ensureServerRunning` never touches the job table. -/
theorem ensureServerRunning_activeJobs (w : World) (svc : ServiceState) :
    (ensureServerRunning w svc).svc.activeJobs = svc.activeJobs := by
  unfold ensureServerRunning
  by_cases h1 : (svc.serverRunning && svc.serverCmd.isSome) = true
  · by_cases h2 : w.pingInitial = true
    · simp [h1, h2]
    · simpa [h1, h2] using startServerLocked_activeJobs w _
  · simpa [h1] using startServerLocked_activeJobs w svc

/-- `doTranscribe` never touches the job table. -/
theorem doTranscribe_activeJobs (w : World) (ctx : Ctx) (svc : ServiceState) (fs : FS)
    (videoPath txtPath : String) :
    (doTranscribe w ctx svc fs videoPath txtPath).svc.activeJobs = svc.activeJobs := by
  simp only [doTranscribe]
  cases he : (ensureServerRunning w svc).err with
  | some e => simp [ensureServerRunning_activeJobs]
  | none =>
    split
    all_goals try split
    all_goals try split
    all_goals try split
    all_goals try split
    all_goals simp [ensureServerRunning_activeJobs]

/-- Updating a present record stores exactly the new status and path. -/
theorem lookupRecord_update_of_some (w : World) (st : Store) (id : String)
    (ts : TranscriptStatus) (path : String) (r : MediaRecord)
    (h : lookupRecord st id = some r) (hok : w.updateOk id ts path = true) :
    lookupRecord (updateTranscriptStatus w st id ts path).1 id
      = some { r with transcriptStatus := ts, transcriptPath := path } := by
  rw [lookupRecord_update, if_pos hok, h]
  rfl

/-- An update never makes a present record disappear. -/
theorem lookupRecord_update_isSome (w : World) (st : Store) (id : String)
    (ts : TranscriptStatus) (path : String) (h : (lookupRecord st id).isSome = true) :
    (lookupRecord (updateTranscriptStatus w st id ts path).1 id).isSome = true := by
  rw [lookupRecord_update]
  split
  · rcases Option.isSome_iff_exists.mp h with ⟨r, hr⟩
    rw [hr]; rfl
  · exact h

/-- A successful update of a present record fixes its stored status. -/
theorem storeStatus_update_of_isSome (w : World) (st : Store) (id : String)
    (ts : TranscriptStatus) (path : String) (h : (lookupRecord st id).isSome = true)
    (hok : w.updateOk id ts path = true) :
    storeStatus (updateTranscriptStatus w st id ts path).1 id = some ts := by
  rcases Option.isSome_iff_exists.mp h with ⟨r, hr⟩
  unfold storeStatus
  rw [lookupRecord_update_of_some w st id ts path r hr hok]
  rfl

/-! ### Concrete fixtures used by witnesses and counterexamples -/

set_option maxRecDepth 100000

/-- Recognizer for readiness-poll events. -/
def isPoll : Event → Bool
  | .poll _ => true
  | _ => false

/-- Service state with no jobs and no tracked server. -/
def svcIdle : ServiceState := ⟨[], Option.none, 0, false⟩

/-- Service state with a live tracked server on the default port. -/
def svcAlive : ServiceState := ⟨[], some 3, 8178, true⟩

/-- A stored record whose video file is at `/v/a.mp4`. -/
def recA : MediaRecord := ⟨"r1", "/v/a.mp4", "t", .none, ""⟩

/-- Store holding just `recA`. -/
def storeA : Store := [("r1", recA)]

/-- Disk holding just the video file of `recA`. -/
def fsA : FS := ⟨[("/v/a.mp4", "vid")]⟩

/-- A context that is never cancelled. -/
def ctxLive : Ctx := ⟨false, false⟩

/-- A context cancelled before the pipeline starts. -/
def ctxDead : Ctx := ⟨true, true⟩

/-- Oracle under which every external call cooperates; the inference response
body carries surrounding whitespace. -/
def wGood : World := {
  getErr := fun _ => false
  updateOk := fun _ _ _ => true
  ffmpegPath := "/ff"
  whisperServerPath := "/ws"
  modelPath := "/m"
  serverPort := 8178
  deleteAfterTranscript := false
  spawnOk := true
  newPid := 7
  pingInitial := true
  pingPoll := fun _ => true
  ffmpegOk := true
  ffmpegOutput := ""
  wavData := "wavdata"
  transportOk := true
  respReadOk := true
  respStatus := 200
  respBody := " hello \n"
  writeTxtOk := true
  ffmpegVersionOk := true
  serverHelpOk := true }

/-- `wGood`, but the readiness probe never succeeds. -/
def wNoPing : World := { wGood with pingPoll := fun _ => false }

/-- `wGood`, but every `UpdateTranscriptStatus` call for `completed` fails
(the store errors on that write only). -/
def wNoComplete : World :=
  { wGood with updateOk := fun _ ts _ => decide (ts ≠ TranscriptStatus.completed) }

/-- `wGood`, but ffmpeg exits non-zero with captured output `"boom"`. -/
def wBadFfmpeg : World := { wGood with ffmpegOk := false, ffmpegOutput := "boom" }

/-- System state whose server is already alive: `recA` stored, its video on
disk. -/
def sysAlive : SysState := ⟨svcAlive, fsA, storeA⟩

/-- `sysAlive`, but a job for `"r1"` is already registered. -/
def sysBusy : SysState := ⟨⟨["r1"], some 3, 8178, true⟩, fsA, storeA⟩

/-- The admitted tail always removes the job entry it inserted: the job
table it leaves behind equals the one before admission. -/
theorem transcribeVideoAdmitted_jobs (w : World) (ctx : Ctx) (sys : SysState)
    (recordID : String) (record : MediaRecord) :
    (transcribeVideoAdmitted w ctx sys recordID record).sys.svc.activeJobs
      = sys.svc.activeJobs := by
  simp only [transcribeVideoAdmitted]
  split
  all_goals try split
  all_goals try split
  all_goals simp [doTranscribe_activeJobs, List.erase_cons_head]

/-- The admitted tail's trace opens with the atomic check-and-insert
critical section. -/
theorem transcribeVideoAdmitted_take4 (w : World) (ctx : Ctx) (sys : SysState)
    (recordID : String) (record : MediaRecord) :
    (transcribeVideoAdmitted w ctx sys recordID record).events.take 4
      = [Event.lockAcq, Event.checkJobs recordID, Event.insertJob recordID,
         Event.lockRel] := by
  simp only [transcribeVideoAdmitted]
  split
  all_goals try split
  all_goals try split
  all_goals rfl

/-! ### C1 -/

/-- C1: at most one live transcription job exists per record ID.  For a
well-formed submission (record found, source file present): (i) submitting
while a job for the same record ID is registered returns the
`alreadyRunning` error and leaves the whole system state — in particular the
first job's table entry, the store and the disk — untouched; (ii) when
admission happens, the trace opens with the existence check immediately
followed by the job-table insert inside one `lockAcq`/`lockRel` critical
section, with no lock release between them; (iii) `TranscribeVideo` never
changes the set of registered jobs it leaves behind, so a duplicate-free job
table stays duplicate-free. -/
theorem transcribeVideo_duplicate_admission (w : World) (ctx : Ctx) (sys : SysState)
    (recordID : String) (r : MediaRecord)
    (hget : getByID w sys.store recordID = .found r)
    (hfile : sys.fs.pathExists r.filePath = true) :
    (recordID ∈ sys.svc.activeJobs →
      transcribeVideo w ctx sys recordID =
        ⟨some .alreadyRunning, sys,
          [Event.lockAcq, Event.checkJobs recordID, Event.lockRel]⟩)
    ∧ (recordID ∉ sys.svc.activeJobs →
      (transcribeVideo w ctx sys recordID).events.take 4 =
        [Event.lockAcq, Event.checkJobs recordID, Event.insertJob recordID, Event.lockRel])
    ∧ (transcribeVideo w ctx sys recordID).sys.svc.activeJobs = sys.svc.activeJobs
    ∧ (List.Nodup sys.svc.activeJobs →
        List.Nodup (transcribeVideo w ctx sys recordID).sys.svc.activeJobs) := by
  have hjobs : (transcribeVideo w ctx sys recordID).sys.svc.activeJobs
      = sys.svc.activeJobs := by
    by_cases hmem : recordID ∈ sys.svc.activeJobs
    · simp [transcribeVideo, hget, hfile, hmem]
    · simp only [transcribeVideo, hget, hfile]
      simp only [Bool.not_true, if_neg (by simp : ¬ ((false : Bool) = true)), hmem,
        if_false]
      exact transcribeVideoAdmitted_jobs w ctx sys recordID r
  refine ⟨?_, ?_, hjobs, fun hnd => hjobs ▸ hnd⟩
  · intro hmem
    simp [transcribeVideo, hget, hfile, hmem]
  · intro hmem
    simp only [transcribeVideo, hget, hfile]
    simp only [Bool.not_true, if_neg (by simp : ¬ ((false : Bool) = true)), hmem,
      if_false]
    exact transcribeVideoAdmitted_take4 w ctx sys recordID r

/-- Witness for C1: a concrete duplicate submission is rejected without
disturbing the registered job. -/
theorem transcribeVideo_duplicate_admission_witness :
    transcribeVideo wGood ctxLive sysBusy "r1" =
      ⟨some .alreadyRunning, sysBusy,
        [Event.lockAcq, Event.checkJobs "r1", Event.lockRel]⟩ :=
  (transcribeVideo_duplicate_admission wGood ctxLive sysBusy "r1" recA
    (by decide) (by decide)).1 (by decide)

/-- A well-formed, non-duplicate submission reduces to the admitted tail. -/
theorem transcribeVideo_eq_admitted (w : World) (ctx : Ctx) (sys : SysState)
    (recordID : String) (r : MediaRecord)
    (hget : getByID w sys.store recordID = .found r)
    (hfile : sys.fs.pathExists r.filePath = true)
    (hnot : recordID ∉ sys.svc.activeJobs) :
    transcribeVideo w ctx sys recordID = transcribeVideoAdmitted w ctx sys recordID r := by
  simp only [transcribeVideo, hget, hfile]
  simp only [Bool.not_true, if_neg (by simp : ¬ ((false : Bool) = true)), hnot, if_false]

/-! ### C2 -/

/-- In the two pipeline-failure branches of the admitted tail (pipeline
error, missing output file) a `failed` status update is issued, and when the
record is present and the store accepts the write, `failed` is persisted. -/
theorem transcribeVideoAdmitted_failed_mark (w : World) (ctx : Ctx) (sys : SysState)
    (recordID : String) (record : MediaRecord)
    (h : (∃ e, (transcribeVideoAdmitted w ctx sys recordID record).err
            = some (.transcribeFailed e))
       ∨ (∃ p, (transcribeVideoAdmitted w ctx sys recordID record).err
            = some (.outputMissing p))) :
    Event.updateStatus recordID .failed ""
        ∈ (transcribeVideoAdmitted w ctx sys recordID record).events
    ∧ ((lookupRecord sys.store recordID).isSome = true →
        w.updateOk recordID .failed "" = true →
        storeStatus (transcribeVideoAdmitted w ctx sys recordID record).sys.store recordID
          = some .failed) := by
  simp only [transcribeVideoAdmitted] at h ⊢
  rcases hde : (doTranscribe w ctx
      { sys.svc with activeJobs := recordID :: sys.svc.activeJobs }
      sys.fs record.filePath (outputTxtPath record.filePath)).err with _ | e
  · simp only [hde] at h ⊢
    by_cases hex : (doTranscribe w ctx
        { sys.svc with activeJobs := recordID :: sys.svc.activeJobs }
        sys.fs record.filePath (outputTxtPath record.filePath)).fs.pathExists
          (outputTxtPath record.filePath) = true
    · simp only [hex] at h ⊢
      by_cases hu : (updateTranscriptStatus w
          (updateTranscriptStatus w sys.store recordID .inProgress "").1 recordID
          .completed (outputTxtPath record.filePath)).2 = true
      · simp [hu] at h
      · simp [hu] at h
    · simp only [Bool.not_eq_true] at hex
      simp only [hex] at h ⊢
      refine ⟨by simp, fun hsome hok => ?_⟩
      exact storeStatus_update_of_isSome w _ recordID .failed ""
        (lookupRecord_update_isSome w sys.store recordID .inProgress "" hsome) hok
  · simp only [hde] at h ⊢
    refine ⟨by simp, fun hsome hok => ?_⟩
    exact storeStatus_update_of_isSome w _ recordID .failed ""
      (lookupRecord_update_isSome w sys.store recordID .inProgress "" hsome) hok

/-- C2 (amended): for a well-formed admitted submission, the deferred
cleanup removes the job-table entry on every exit branch, and every
pipeline-failure exit (pipeline error or missing output file) issues a
`failed` status update, persisted whenever the store accepts the write.  The
amendment: the branch in which the final `completed` status write itself
fails returns an error *without* writing `failed` — see the
counterexample. -/
theorem transcribeVideo_error_cleanup (w : World) (ctx : Ctx) (sys : SysState)
    (recordID : String) (r : MediaRecord)
    (hget : getByID w sys.store recordID = .found r)
    (hfile : sys.fs.pathExists r.filePath = true)
    (hnot : recordID ∉ sys.svc.activeJobs) :
    recordID ∉ (transcribeVideo w ctx sys recordID).sys.svc.activeJobs
    ∧ ((∃ e, (transcribeVideo w ctx sys recordID).err = some (.transcribeFailed e))
        ∨ (∃ p, (transcribeVideo w ctx sys recordID).err = some (.outputMissing p)) →
        Event.updateStatus recordID .failed "" ∈ (transcribeVideo w ctx sys recordID).events
        ∧ (w.updateOk recordID .failed "" = true →
            storeStatus (transcribeVideo w ctx sys recordID).sys.store recordID
              = some .failed)) := by
  have heq : transcribeVideo w ctx sys recordID
      = transcribeVideoAdmitted w ctx sys recordID r :=
    transcribeVideo_eq_admitted w ctx sys recordID r hget hfile hnot
  have hsome : (lookupRecord sys.store recordID).isSome = true := by
    rw [(getByID_found w sys.store recordID r hget).2]; rfl
  rw [heq]
  refine ⟨?_, ?_⟩
  · rw [transcribeVideoAdmitted_jobs]
    exact hnot
  · intro h
    have hm := transcribeVideoAdmitted_failed_mark w ctx sys recordID r h
    exact ⟨hm.1, fun hok => hm.2 hsome hok⟩

/-- Witness for C2: a concrete pipeline failure (ffmpeg exits non-zero)
issues the `failed` update and releases the job entry. -/
theorem transcribeVideo_error_cleanup_witness :
    "r1" ∉ (transcribeVideo wBadFfmpeg ctxLive sysAlive "r1").sys.svc.activeJobs
    ∧ Event.updateStatus "r1" .failed ""
        ∈ (transcribeVideo wBadFfmpeg ctxLive sysAlive "r1").events := by
  have h := transcribeVideo_error_cleanup wBadFfmpeg ctxLive sysAlive "r1" recA
    (by decide) (by decide) (by decide)
  exact ⟨h.1, (h.2 (Or.inl ⟨.extractionFailed "boom", by decide⟩)).1⟩

/-- Counterexample for C2 as stated: when the pipeline succeeds but the
final `completed` status write fails, `TranscribeVideo` returns an error
(an error exit branch after admission) yet no `failed` status is issued or
persisted — the record stays `inProgress`. -/
theorem transcribeVideo_error_cleanup_cex :
    (transcribeVideo wNoComplete ctxLive sysAlive "r1").err = some .updateStatusFailed
    ∧ Event.updateStatus "r1" .failed ""
        ∉ (transcribeVideo wNoComplete ctxLive sysAlive "r1").events
    ∧ storeStatus (transcribeVideo wNoComplete ctxLive sysAlive "r1").sys.store "r1"
        = some .inProgress := by
  decide

/-! ### C3 -/

/-- `doTranscribe` under a cooperative oracle with an already-alive server:
the wav temp file is written then removed, and the trimmed response body is
written to `txtPath`. -/
theorem doTranscribe_success (w : World) (ctx : Ctx) (svc : ServiceState) (fs : FS)
    (videoPath txtPath : String)
    (hens : ensureServerRunning w svc = ⟨Option.none, svc, [Event.pingOnce]⟩)
    (hff : w.ffmpegPath ≠ "")
    (hc1 : ctx.cancelledBeforeExtraction = false)
    (hfok : w.ffmpegOk = true)
    (hc2 : ctx.cancelledBeforeInference = false)
    (htr : w.transportOk = true)
    (hrr : w.respReadOk = true)
    (hst : w.respStatus = 200)
    (hw : w.writeTxtOk = true) :
    doTranscribe w ctx svc fs videoPath txtPath =
      ⟨Option.none, svc,
        ((fs.write (videoPath ++ ".tmp.wav") w.wavData).write txtPath
          (trimSpace w.respBody)).remove (videoPath ++ ".tmp.wav"),
        [Event.pingOnce, Event.runFfmpeg, Event.httpPost, Event.writeFile txtPath,
         Event.removeFile (videoPath ++ ".tmp.wav")]⟩ := by
  have hpi : postInference w ctx (fs.write (videoPath ++ ".tmp.wav") w.wavData)
      (videoPath ++ ".tmp.wav") = .ok w.respBody := by
    unfold postInference
    rw [FS.read?_write_self]
    simp [hc2, htr, hrr, hst]
  simp only [doTranscribe, hens]
  simp [hff, hc1, hfok, hpi, hw]

/-- C3 (amended): a successful pipeline run (cooperative oracle, server
already alive, no post-success deletion configured, clean disk for the two
output paths) ends with: no error; exactly one new file, at
`outputTxtPath` — the source path with its extension replaced by `.txt` —
holding the inference response body with surrounding whitespace trimmed
(the amendment: `strings.TrimSpace` is applied at line 396, so the raw body
is not preserved verbatim); every other path unchanged; stored status
`completed` with that path; and the `completed` status write appearing in
the trace immediately after the successful `os.Stat` existence check of the
output file. -/
theorem transcribeVideo_success_output (w : World) (ctx : Ctx) (sys : SysState)
    (recordID : String) (r : MediaRecord)
    (hget : getByID w sys.store recordID = .found r)
    (hfile : sys.fs.pathExists r.filePath = true)
    (hnot : recordID ∉ sys.svc.activeJobs)
    (hrun : sys.svc.serverRunning = true)
    (hcmd : sys.svc.serverCmd.isSome = true)
    (hping : w.pingInitial = true)
    (hff : w.ffmpegPath ≠ "")
    (hc1 : ctx.cancelledBeforeExtraction = false)
    (hfok : w.ffmpegOk = true)
    (hc2 : ctx.cancelledBeforeInference = false)
    (htr : w.transportOk = true)
    (hrr : w.respReadOk = true)
    (hst : w.respStatus = 200)
    (hw : w.writeTxtOk = true)
    (hupdC : w.updateOk recordID .completed (outputTxtPath r.filePath) = true)
    (hdel : w.deleteAfterTranscript = false)
    (hwav : sys.fs.read? (r.filePath ++ ".tmp.wav") = Option.none)
    (hne : outputTxtPath r.filePath ≠ r.filePath ++ ".tmp.wav") :
    (transcribeVideo w ctx sys recordID).err = Option.none
    ∧ (transcribeVideo w ctx sys recordID).sys.fs.read? (outputTxtPath r.filePath)
        = some (trimSpace w.respBody)
    ∧ (∀ p, p ≠ outputTxtPath r.filePath →
        (transcribeVideo w ctx sys recordID).sys.fs.read? p = sys.fs.read? p)
    ∧ storeStatus (transcribeVideo w ctx sys recordID).sys.store recordID = some .completed
    ∧ storeTxtPath (transcribeVideo w ctx sys recordID).sys.store recordID
        = some (outputTxtPath r.filePath)
    ∧ (∃ pre post, (transcribeVideo w ctx sys recordID).events
        = pre ++ [Event.statOutput (outputTxtPath r.filePath) true,
                  Event.updateStatus recordID .completed (outputTxtPath r.filePath)]
            ++ post) := by
  rw [transcribeVideo_eq_admitted w ctx sys recordID r hget hfile hnot]
  have hens : ensureServerRunning w
      { sys.svc with activeJobs := recordID :: sys.svc.activeJobs }
      = ⟨Option.none, { sys.svc with activeJobs := recordID :: sys.svc.activeJobs },
         [Event.pingOnce]⟩ :=
    ensureServerRunning_alive w _ hrun hcmd hping
  have hd := doTranscribe_success w ctx
    { sys.svc with activeJobs := recordID :: sys.svc.activeJobs } sys.fs
    r.filePath (outputTxtPath r.filePath) hens hff hc1 hfok hc2 htr hrr hst hw
  have hex : (((sys.fs.write (r.filePath ++ ".tmp.wav") w.wavData).write
      (outputTxtPath r.filePath) (trimSpace w.respBody)).remove
      (r.filePath ++ ".tmp.wav")).pathExists (outputTxtPath r.filePath) = true := by
    unfold FS.pathExists
    rw [FS.read?_remove_ne _ _ _ hne, FS.read?_write_self]
    rfl
  have hsome : (lookupRecord sys.store recordID).isSome = true := by
    rw [(getByID_found w sys.store recordID r hget).2]; rfl
  have hu2 : (updateTranscriptStatus w
      (updateTranscriptStatus w sys.store recordID .inProgress "").1 recordID
      .completed (outputTxtPath r.filePath)).2 = true := by
    rw [updateTranscriptStatus_snd]; exact hupdC
  have hres : transcribeVideoAdmitted w ctx sys recordID r =
      ⟨Option.none,
        ⟨sys.svc,
          ((sys.fs.write (r.filePath ++ ".tmp.wav") w.wavData).write
            (outputTxtPath r.filePath) (trimSpace w.respBody)).remove
            (r.filePath ++ ".tmp.wav"),
          (updateTranscriptStatus w
            (updateTranscriptStatus w sys.store recordID .inProgress "").1 recordID
            .completed (outputTxtPath r.filePath)).1⟩,
        [Event.lockAcq, Event.checkJobs recordID, Event.insertJob recordID, Event.lockRel,
         Event.updateStatus recordID .inProgress "", Event.pingOnce, Event.runFfmpeg,
         Event.httpPost, Event.writeFile (outputTxtPath r.filePath),
         Event.removeFile (r.filePath ++ ".tmp.wav"),
         Event.statOutput (outputTxtPath r.filePath) true,
         Event.updateStatus recordID .completed (outputTxtPath r.filePath),
         Event.lockAcq, Event.removeJob recordID, Event.lockRel]⟩ := by
    simp only [transcribeVideoAdmitted, hd]
    simp only [hex, hu2, hdel]
    simp [List.erase_cons_head]
  rw [hres]
  rcases Option.isSome_iff_exists.mp
    (lookupRecord_update_isSome w sys.store recordID .inProgress "" hsome) with ⟨r1, hr1⟩
  have hlook := lookupRecord_update_of_some w _ recordID .completed
    (outputTxtPath r.filePath) r1 hr1 hupdC
  refine ⟨rfl, ?_, ?_, ?_, ?_, ?_⟩
  · rw [FS.read?_remove_ne _ _ _ hne, FS.read?_write_self]
  · intro p hp
    by_cases hpw : p = r.filePath ++ ".tmp.wav"
    · subst hpw
      rw [FS.read?_remove_self, hwav]
    · rw [FS.read?_remove_ne _ _ _ hpw, FS.read?_write_ne _ _ _ _ hp,
        FS.read?_write_ne _ _ _ _ hpw]
  · unfold storeStatus
    rw [hlook]
    rfl
  · unfold storeTxtPath
    rw [hlook]
    rfl
  · exact ⟨[Event.lockAcq, Event.checkJobs recordID, Event.insertJob recordID,
      Event.lockRel, Event.updateStatus recordID .inProgress "", Event.pingOnce,
      Event.runFfmpeg, Event.httpPost, Event.writeFile (outputTxtPath r.filePath),
      Event.removeFile (r.filePath ++ ".tmp.wav")],
      [Event.lockAcq, Event.removeJob recordID, Event.lockRel], by simp⟩

/-- Witness for C3: the concrete cooperative run writes `/v/a.txt` and marks
the record completed with that path. -/
theorem transcribeVideo_success_output_witness :
    (transcribeVideo wGood ctxLive sysAlive "r1").err = Option.none
    ∧ (transcribeVideo wGood ctxLive sysAlive "r1").sys.fs.read? (outputTxtPath "/v/a.mp4")
        = some (trimSpace wGood.respBody)
    ∧ storeStatus (transcribeVideo wGood ctxLive sysAlive "r1").sys.store "r1"
        = some .completed := by
  have h := transcribeVideo_success_output wGood ctxLive sysAlive "r1" recA
    (by decide) (by decide) (by decide) (by decide) (by decide) rfl (by decide) rfl rfl
    rfl rfl rfl rfl rfl (by decide) rfl (by decide) (by decide)
  exact ⟨h.1, h.2.1, h.2.2.2.1⟩

/-- Counterexample for C3 as stated: the inference response body of `wGood`
is `" hello \n"`, but the file left behind holds the trimmed `"hello"` —
the output file's contents are not the server's response body verbatim. -/
theorem transcribeVideo_success_output_cex :
    wGood.respBody = " hello \n"
    ∧ (transcribeVideo wGood ctxLive sysAlive "r1").err = Option.none
    ∧ (transcribeVideo wGood ctxLive sysAlive "r1").sys.fs.read? "/v/a.txt" = some "hello"
    ∧ ¬ ((transcribeVideo wGood ctxLive sysAlive "r1").sys.fs.read? "/v/a.txt"
          = some wGood.respBody) := by
  decide

/-! ### C6 -/

/-- `doTranscribe` when the encoder run fails (non-zero exit or
context-kill): the partial wav file is removed and the error carries the
captured process output. -/
theorem doTranscribe_extraction_failure (w : World) (ctx : Ctx) (svc : ServiceState)
    (fs : FS) (videoPath txtPath : String)
    (hens : ensureServerRunning w svc = ⟨Option.none, svc, [Event.pingOnce]⟩)
    (hff : w.ffmpegPath ≠ "")
    (hebr : (ctx.cancelledBeforeExtraction || !w.ffmpegOk) = true) :
    doTranscribe w ctx svc fs videoPath txtPath =
      ⟨some (.extractionFailed w.ffmpegOutput), svc,
        fs.remove (videoPath ++ ".tmp.wav"),
        [Event.pingOnce, Event.runFfmpeg, Event.removeFile (videoPath ++ ".tmp.wav")]⟩ := by
  simp only [doTranscribe, hens]
  simp [hff, hebr]

/-- C6: when the encoder exits non-zero (server alive, paths configured, no
cancellation), the job fails with the extraction error carrying the captured
encoder output, the partial waveform file is gone from disk and its removal
is in the trace, a `failed` status update is issued, and — when the store
accepts the write — `failed` is persisted. -/
theorem transcribeVideo_extraction_failure (w : World) (ctx : Ctx) (sys : SysState)
    (recordID : String) (r : MediaRecord)
    (hget : getByID w sys.store recordID = .found r)
    (hfile : sys.fs.pathExists r.filePath = true)
    (hnot : recordID ∉ sys.svc.activeJobs)
    (hrun : sys.svc.serverRunning = true)
    (hcmd : sys.svc.serverCmd.isSome = true)
    (hping : w.pingInitial = true)
    (hff : w.ffmpegPath ≠ "")
    (hc1 : ctx.cancelledBeforeExtraction = false)
    (hfko : w.ffmpegOk = false) :
    (transcribeVideo w ctx sys recordID).err
        = some (.transcribeFailed (.extractionFailed w.ffmpegOutput))
    ∧ (transcribeVideo w ctx sys recordID).sys.fs.pathExists
        (r.filePath ++ ".tmp.wav") = false
    ∧ Event.removeFile (r.filePath ++ ".tmp.wav")
        ∈ (transcribeVideo w ctx sys recordID).events
    ∧ Event.updateStatus recordID .failed "" ∈ (transcribeVideo w ctx sys recordID).events
    ∧ (w.updateOk recordID .failed "" = true →
        storeStatus (transcribeVideo w ctx sys recordID).sys.store recordID
          = some .failed) := by
  rw [transcribeVideo_eq_admitted w ctx sys recordID r hget hfile hnot]
  have hens : ensureServerRunning w
      { sys.svc with activeJobs := recordID :: sys.svc.activeJobs }
      = ⟨Option.none, { sys.svc with activeJobs := recordID :: sys.svc.activeJobs },
         [Event.pingOnce]⟩ :=
    ensureServerRunning_alive w _ hrun hcmd hping
  have hd := doTranscribe_extraction_failure w ctx
    { sys.svc with activeJobs := recordID :: sys.svc.activeJobs } sys.fs
    r.filePath (outputTxtPath r.filePath) hens hff (by simp [hc1, hfko])
  have hsome : (lookupRecord sys.store recordID).isSome = true := by
    rw [(getByID_found w sys.store recordID r hget).2]; rfl
  have hres : transcribeVideoAdmitted w ctx sys recordID r =
      ⟨some (.transcribeFailed (.extractionFailed w.ffmpegOutput)),
        ⟨sys.svc, sys.fs.remove (r.filePath ++ ".tmp.wav"),
          (updateTranscriptStatus w
            (updateTranscriptStatus w sys.store recordID .inProgress "").1 recordID
            .failed "").1⟩,
        [Event.lockAcq, Event.checkJobs recordID, Event.insertJob recordID, Event.lockRel,
         Event.updateStatus recordID .inProgress "", Event.pingOnce, Event.runFfmpeg,
         Event.removeFile (r.filePath ++ ".tmp.wav"),
         Event.updateStatus recordID .failed "",
         Event.lockAcq, Event.removeJob recordID, Event.lockRel]⟩ := by
    simp only [transcribeVideoAdmitted, hd]
    simp [List.erase_cons_head]
  rw [hres]
  refine ⟨rfl, FS.pathExists_remove_self sys.fs _, by simp, by simp, fun hok => ?_⟩
  exact storeStatus_update_of_isSome w _ recordID .failed ""
    (lookupRecord_update_isSome w sys.store recordID .inProgress "" hsome) hok

/-- Witness for C6: the concrete encoder failure `"boom"`. -/
theorem transcribeVideo_extraction_failure_witness :
    (transcribeVideo wBadFfmpeg ctxLive sysAlive "r1").err
      = some (.transcribeFailed (.extractionFailed wBadFfmpeg.ffmpegOutput))
    ∧ (transcribeVideo wBadFfmpeg ctxLive sysAlive "r1").sys.fs.pathExists
        "/v/a.mp4.tmp.wav" = false
    ∧ storeStatus (transcribeVideo wBadFfmpeg ctxLive sysAlive "r1").sys.store "r1"
        = some .failed := by
  have h := transcribeVideo_extraction_failure wBadFfmpeg ctxLive sysAlive "r1" recA
    (by decide) (by decide) (by decide) (by decide) (by decide) rfl (by decide) rfl rfl
  exact ⟨h.1, h.2.1, h.2.2.2.2 rfl⟩

/-! ### C4 -/

/-- C4 (amended): `startServerLocked` fails with the path-not-configured
errors, spawning nothing, when the whisper-server executable path or the
model path setting is empty; `ensureServerRunning` delegates to it whenever
no server is tracked.  The model-file-on-disk existence check exists only in
`ValidateTools` (line 86), not in `EnsureReady`: it is `validateTools` that
reports a missing model file. -/
theorem ensureReady_config_checks :
    (∀ (w : World) (svc : ServiceState), w.whisperServerPath = "" →
      startServerLocked w svc = ⟨some .serverPathNotConfigured, svc, []⟩)
    ∧ (∀ (w : World) (svc : ServiceState), w.whisperServerPath ≠ "" → w.modelPath = "" →
      startServerLocked w svc = ⟨some .modelPathNotConfigured, svc, []⟩)
    ∧ (∀ (w : World) (svc : ServiceState), svc.serverRunning = false →
      ensureServerRunning w svc = startServerLocked w svc)
    ∧ (∀ (w : World) (fs : FS), w.ffmpegPath ≠ "" → w.ffmpegVersionOk = true →
      w.whisperServerPath ≠ "" → w.serverHelpOk = true → w.modelPath ≠ "" →
      fs.pathExists w.modelPath = false →
      validateTools w fs = some .modelFileMissing) := by
  refine ⟨?_, ?_, ?_, ?_⟩
  · intro w svc h
    simp [startServerLocked, h]
  · intro w svc h1 h2
    simp [startServerLocked, h1, h2]
  · intro w svc h
    exact ensureServerRunning_notRunning w svc h
  · intro w fs h1 h2 h3 h4 h5 h6
    simp [validateTools, h1, h2, h3, h4, h5, h6]

/-- Witness for C4: an empty executable path yields the not-configured error
with no spawn. -/
theorem ensureReady_config_checks_witness :
    startServerLocked { wGood with whisperServerPath := "" } svcIdle
      = ⟨some .serverPathNotConfigured, svcIdle, []⟩ :=
  ensureReady_config_checks.1 { wGood with whisperServerPath := "" } svcIdle rfl

/-- Counterexample for C4 as stated: with the model path set to `/m` but no
file at `/m` on disk, `startServerLocked` does spawn a child process and the
eventual failure is `startupTimeout`, not a model-file-not-found error. -/
theorem ensureReady_config_checks_cex :
    wNoPing.modelPath = "/m"
    ∧ fsA.pathExists "/m" = false
    ∧ Event.spawn wNoPing.newPid ∈ (startServerLocked wNoPing svcIdle).events
    ∧ (startServerLocked wNoPing svcIdle).err = some .startupTimeout := by
  decide

/-! ### C5 -/

/-- C5 (amended): the inference call carries the job's context, but also has
its own hardcoded 10-minute `http.Client` timeout, so its effective deadline
is the earlier of the two — a 30-minute job deadline is truncated to 10
minutes.  The health probe has a fixed 2-second timeout and, carrying no
caller context, is independent of job deadlines. -/
theorem inference_timeout_config :
    inferenceClientConfig.timeoutMs = some 600000
    ∧ inferenceClientConfig.usesRequestContext = true
    ∧ (∀ d, effectiveDeadline inferenceClientConfig (some d) = some (Nat.min 600000 d))
    ∧ effectiveDeadline inferenceClientConfig (some asyncJobTimeoutMs) = some 600000
    ∧ pingClientConfig = ⟨some 2000, false⟩
    ∧ (∀ d, effectiveDeadline pingClientConfig d = some 2000) := by
  refine ⟨rfl, rfl, fun d => rfl, by decide, rfl, fun d => rfl⟩

/-- Counterexample for C5 as stated: the inference call's client timeout is
not absent — even with no caller deadline at all the call is cut off at 10
minutes, and the job's 30-minute deadline is not what bounds the call. -/
theorem inference_timeout_config_cex :
    inferenceClientConfig.timeoutMs ≠ Option.none
    ∧ effectiveDeadline inferenceClientConfig Option.none = some 600000
    ∧ effectiveDeadline inferenceClientConfig (some asyncJobTimeoutMs)
        ≠ some asyncJobTimeoutMs := by
  decide

/-! ### C7 -/

/-- C7: a fresh launch blocks on the readiness probe with the 120-second
ceiling and 500 ms poll interval (240 polls); when no probe ever succeeds
the spawned process is killed and reaped, the tracked handle is cleared and
`startupTimeout` is returned; when a probe succeeds the supervisor stops
polling and marks the server running. -/
theorem startServer_startup_timeout :
    (∀ (w : World) (svc : ServiceState), w.whisperServerPath ≠ "" → w.modelPath ≠ "" →
      w.spawnOk = true → (∀ k, w.pingPoll k = false) →
      startServerLocked w svc =
        ⟨some .startupTimeout,
          { svc with serverCmd := Option.none, serverPort := w.serverPort },
          [Event.spawn w.newPid] ++ (List.range 240).map Event.poll
            ++ [Event.kill w.newPid, Event.reap w.newPid]⟩)
    ∧ serverStartTimeoutMs = 120000
    ∧ serverPollIntervalMs = 500
    ∧ numPolls serverStartTimeoutMs serverPollIntervalMs = 240
    ∧ (∀ (w : World) (svc : ServiceState), w.whisperServerPath ≠ "" → w.modelPath ≠ "" →
      w.spawnOk = true → w.pingPoll 0 = true →
      startServerLocked w svc =
        ⟨Option.none,
          { svc with serverCmd := some w.newPid, serverPort := w.serverPort,
                     serverRunning := true },
          [Event.spawn w.newPid, Event.poll 0]⟩) :=
  ⟨fun w svc h1 h2 h3 h4 => startServerLocked_timeout w svc h1 h2 h3 h4,
   rfl, rfl, numPolls_startup,
   fun w svc h1 h2 h3 h4 => startServerLocked_ready0 w svc h1 h2 h3 h4⟩

/-- Witness for C7: the concrete never-ready world times out, kills and
reaps pid 7, and clears the handle. -/
theorem startServer_startup_timeout_witness :
    (startServerLocked wNoPing svcIdle).err = some .startupTimeout
    ∧ (startServerLocked wNoPing svcIdle).svc.serverCmd = Option.none
    ∧ Event.kill wNoPing.newPid ∈ (startServerLocked wNoPing svcIdle).events
    ∧ Event.reap wNoPing.newPid ∈ (startServerLocked wNoPing svcIdle).events := by
  have h := startServer_startup_timeout.1 wNoPing svcIdle (by decide) (by decide) rfl
    (fun k => rfl)
  rw [h]
  refine ⟨rfl, rfl, by simp, by simp⟩

/-! ### C9 -/

/-- C9 (amended): the extraction subprocess and the inference HTTP call do
observe the job's cancellation context — a context cancelled before
extraction aborts the pipeline at the encoder step and never reaches the
inference POST, and one cancelled before inference fails the POST with a
cancellation error.  The startup health polling, however, takes no context
at all: for every context, cancelled or not, a never-ready server makes the
pipeline sit through the full poll loop and fail with `startupTimeout` —
see the counterexample for the 240 polls a fully cancelled job still runs. -/
theorem pipeline_cancellation :
    (∀ (w : World) (ctx : Ctx) (svc : ServiceState) (fs : FS) (v t : String),
      ctx.cancelledBeforeExtraction = true →
      (ensureServerRunning w svc).err = Option.none → w.ffmpegPath ≠ "" →
      (doTranscribe w ctx svc fs v t).err = some (.extractionFailed w.ffmpegOutput)
      ∧ Event.httpPost ∉ (doTranscribe w ctx svc fs v t).events)
    ∧ (∀ (w : World) (ctx : Ctx) (svc : ServiceState) (fs : FS) (v t : String),
      ctx.cancelledBeforeExtraction = false → ctx.cancelledBeforeInference = true →
      (ensureServerRunning w svc).err = Option.none → w.ffmpegPath ≠ "" →
      w.ffmpegOk = true →
      (doTranscribe w ctx svc fs v t).err = some (.inferenceFailed (.requestFailed true)))
    ∧ (∀ (w : World) (ctx : Ctx) (svc : ServiceState) (fs : FS) (v t : String),
      svc.serverRunning = false → w.whisperServerPath ≠ "" → w.modelPath ≠ "" →
      w.spawnOk = true → (∀ k, w.pingPoll k = false) →
      (doTranscribe w ctx svc fs v t).err = some (.serverNotReady .startupTimeout)) := by
  refine ⟨?_, ?_, ?_⟩
  · intro w ctx svc fs v t hc1 hens hff
    have hd : doTranscribe w ctx svc fs v t =
        ⟨some (.extractionFailed w.ffmpegOutput), (ensureServerRunning w svc).svc,
          fs.remove (v ++ ".tmp.wav"),
          (ensureServerRunning w svc).events
            ++ [Event.runFfmpeg, Event.removeFile (v ++ ".tmp.wav")]⟩ := by
      simp only [doTranscribe, hens]
      simp [hff, hc1]
    rw [hd]
    refine ⟨rfl, fun h => ?_⟩
    rcases List.mem_append.mp h with h1 | h2
    · exact ensureServerRunning_no_httpPost w svc h1
    · simp at h2
  · intro w ctx svc fs v t hc1 hc2 hens hff hfok
    have hpi : postInference w ctx (fs.write (v ++ ".tmp.wav") w.wavData)
        (v ++ ".tmp.wav") = .fail (.requestFailed true) := by
      unfold postInference
      rw [FS.read?_write_self]
      simp [hc2]
    simp only [doTranscribe, hens]
    simp [hff, hc1, hfok, hpi]
  · intro w ctx svc fs v t hrun h1 h2 h3 h4
    have he : (ensureServerRunning w svc).err = some .startupTimeout := by
      rw [ensureServerRunning_notRunning w svc hrun,
        startServerLocked_timeout w svc h1 h2 h3 h4]
    simp only [doTranscribe, he]

/-- Witness for C9: a context cancelled before extraction aborts a concrete
pipeline at the encoder step. -/
theorem pipeline_cancellation_witness :
    (doTranscribe wGood ctxDead svcAlive fsA "/v/a.mp4" "/v/a.txt").err
      = some (.extractionFailed wGood.ffmpegOutput) :=
  (pipeline_cancellation.1 wGood ctxDead svcAlive fsA "/v/a.mp4" "/v/a.txt" rfl
    (by decide) (by decide)).1

/-- Counterexample for C9 as stated: a job whose context is cancelled from
the start still runs all 240 readiness polls of the startup health wait —
the health-polling suspension point never observes cancellation — and exits
with the startup-timeout error rather than a cancellation error. -/
theorem pipeline_cancellation_cex :
    ctxDead.cancelledBeforeExtraction = true
    ∧ (doTranscribe wNoPing ctxDead svcIdle fsA "/v/a.mp4" "/v/a.txt").err
        = some (.serverNotReady .startupTimeout)
    ∧ ((doTranscribe wNoPing ctxDead svcIdle fsA "/v/a.mp4" "/v/a.txt").events.filter
        isPoll).length = 240 := by
  decide

/-! ### C8 -/

/-- C8: `CancelTranscription` errors exactly when no active job exists for
the record ID; with an active job it invokes the job's cancel token, records
`failed` status, and deletes nothing: the disk and the job table are
untouched and no file-removal event is emitted. -/
theorem cancelTranscription_spec (w : World) (sys : SysState) (recordID : String) :
    ((cancelTranscription w sys recordID).err = some (.noActiveJob recordID)
        ↔ recordID ∉ sys.svc.activeJobs)
    ∧ (recordID ∈ sys.svc.activeJobs →
        (cancelTranscription w sys recordID).err = Option.none
        ∧ (cancelTranscription w sys recordID).events
            = [Event.cancelInvoked recordID, Event.updateStatus recordID .failed ""]
        ∧ (cancelTranscription w sys recordID).sys.fs = sys.fs
        ∧ (cancelTranscription w sys recordID).sys.svc = sys.svc
        ∧ (∀ p, Event.removeFile p ∉ (cancelTranscription w sys recordID).events)
        ∧ ((lookupRecord sys.store recordID).isSome = true →
            w.updateOk recordID .failed "" = true →
            storeStatus (cancelTranscription w sys recordID).sys.store recordID
              = some .failed)) := by
  by_cases hmem : recordID ∈ sys.svc.activeJobs
  · refine ⟨?_, ?_⟩
    · simp [cancelTranscription, hmem]
    · intro _
      refine ⟨?_, ?_, ?_, ?_, ?_, ?_⟩
      · simp [cancelTranscription, hmem]
      · simp [cancelTranscription, hmem]
      · simp [cancelTranscription, hmem]
      · simp [cancelTranscription, hmem]
      · intro p; simp [cancelTranscription, hmem]
      · intro hsome hok
        simp only [cancelTranscription, hmem, if_pos]
        exact storeStatus_update_of_isSome w sys.store recordID .failed "" hsome hok
  · refine ⟨?_, fun h => absurd h hmem⟩
    simp [cancelTranscription, hmem]

/-- Witness for C8: cancelling the registered job of `sysBusy` succeeds and
leaves the disk untouched; cancelling when idle fails. -/
theorem cancelTranscription_spec_witness :
    (cancelTranscription wGood sysBusy "r1").err = Option.none
    ∧ (cancelTranscription wGood sysBusy "r1").sys.fs = sysBusy.fs
    ∧ ((cancelTranscription wGood sysAlive "r1").err = some (.noActiveJob "r1")
        ↔ "r1" ∉ sysAlive.svc.activeJobs) := by
  refine ⟨?_, ?_, (cancelTranscription_spec wGood sysAlive "r1").1⟩
  · exact ((cancelTranscription_spec wGood sysBusy "r1").2 (by decide)).1
  · exact ((cancelTranscription_spec wGood sysBusy "r1").2 (by decide)).2.2.1

/-! ### C10 -/

/-- C10: `GetTranscript` returns file contents exactly when the record
lookup succeeds, the record exists, its transcript status is `completed`,
its transcript path is non-empty, and the file at that path is readable; in
every other case it fails. -/
theorem getTranscript_ok_iff (w : World) (sys : SysState) (recordID data : String) :
    getTranscript w sys recordID = .ok data ↔
      (w.getErr recordID = false ∧
        ∃ r, lookupRecord sys.store recordID = some r ∧
          r.transcriptStatus = .completed ∧ r.transcriptPath ≠ "" ∧
          sys.fs.read? r.transcriptPath = some data) := by
  unfold getTranscript getByID
  by_cases hge : w.getErr recordID = true
  · simp [hge]
  · cases hl : lookupRecord sys.store recordID with
    | none => simp [hge, hl]
    | some r =>
      by_cases hcond : r.transcriptPath = "" ∨ r.transcriptStatus ≠ .completed
      · rw [if_neg (by simp [hge])]
        simp only [if_pos hcond]
        constructor
        · intro h; exact absurd h (by simp)
        · rintro ⟨-, rr, hrr, hst, hpath, -⟩
          injection hrr with hrr2
          subst hrr2
          rcases hcond with hc | hc
          · exact absurd hc hpath
          · exact absurd hst hc
      · rw [if_neg (by simp [hge])]
        simp only [if_neg hcond]
        push_neg at hcond
        cases hread : sys.fs.read? r.transcriptPath with
        | none =>
          constructor
          · intro h; exact absurd h (by simp)
          · rintro ⟨-, rr, hrr, -, -, hdata⟩
            injection hrr with hrr2
            subst hrr2
            rw [hread] at hdata
            exact absurd hdata (by simp)
        | some d =>
          constructor
          · intro h
            refine ⟨by simp [hge], r, rfl, hcond.2, hcond.1, ?_⟩
            rw [hread]
            cases h
            rfl
          · rintro ⟨-, rr, hrr, -, -, hdata⟩
            injection hrr with hrr2
            subst hrr2
            rw [hread] at hdata
            injection hdata with hdata2
            subst hdata2
            rfl

/-- Witness for C10: a completed record with a readable transcript file. -/
theorem getTranscript_ok_iff_witness :
    getTranscript wGood
      ⟨svcIdle, ⟨[("/v/b.txt", "text")]⟩, [("r2", ⟨"r2", "/v/b.mp4", "t", .completed, "/v/b.txt"⟩)]⟩
      "r2" = .ok "text" :=
  (getTranscript_ok_iff wGood
    ⟨svcIdle, ⟨[("/v/b.txt", "text")]⟩, [("r2", ⟨"r2", "/v/b.mp4", "t", .completed, "/v/b.txt"⟩)]⟩
    "r2" "text").mpr
    ⟨by decide, ⟨"r2", "/v/b.mp4", "t", .completed, "/v/b.txt"⟩, by decide, by decide,
      by decide, by decide⟩

end WxChannel
